import Mathlib

/-!
Verification of the `FocusManager` utility class (`src/unnamed/part_000`,
CKEditor 5, 2016) against its natural-language specification.

The class tracks a group of HTML elements and exposes a derived boolean
`isFocused`.  We embed it shallowly: DOM element handles are `Nat`,
the host environment's timer facility (`setTimeout` / `clearTimeout`)
is modelled explicitly by a list of outstanding timer ids together with
a fresh-id counter.  `setTimeout` in the source always schedules the same
closure (clear `_focusedElement`, set `isFocused := false`), so firing a
timer needs no stored callback: every pending timer runs that one body.

Design decisions, each traceable to a source line:
  * `this.set( 'isFocused', false )` (line 36)            → field `isFocused`
  * `this._elements = []` (line 44)                        → field `elements`
  * `this._nextEventLoopTimeout = null` (line 52)          → field `nextEventLoopTimeout`
  * `this._focusedElement = null` (line 60)                → field `focusedElement`
  * `listenTo` / `stopListening` subscriptions             → field `listening`
    (`add` subscribes both the focus and the blur listener of an element and
    `stopListening( element )` detaches them both, so one membership list
    models the pair; `stopListening` removes *all* subscriptions on the
    element, hence `List.filter`).
  * `setTimeout( …, 0 )` returns a fresh handle            → `counter`, appended
    to `pending`; `clearTimeout h` removes `h` from `pending` when present
    (clearing `null`, a fired or an already-cleared handle is a no-op, as in JS).
-/

namespace FocusTracking

/-- The single error kind the class can raise:
`throw new CKEditorError( 'focusManager-add-element-already-exist' )`. -/
inductive CKEditorError where
  | focusManagerAddElementAlreadyExist
deriving Repr, DecidableEq

/-- State of one `FocusManager` instance together with the host timer queue. -/
structure FocusManager where
  /-- Field for `this.isFocused`, the observable boolean. -/
  isFocused : Bool
  /-- Field for `this._elements`, the list of registered elements. -/
  elements : List Nat
  /-- Elements whose `focus`/`blur` listeners are currently attached. -/
  listening : List Nat
  /-- Field for `this._focusedElement`. -/
  focusedElement : Option Nat
  /-- Handles of timers scheduled by `setTimeout` that have neither fired
  nor been cancelled by `clearTimeout`. -/
  pending : List Nat
  /-- Field for `this._nextEventLoopTimeout`, the stored handle of the most recently
  scheduled timer (possibly stale). -/
  nextEventLoopTimeout : Option Nat
  /-- Source of fresh timer handles (JS never reuses a live handle). -/
  counter : Nat
deriving Repr, DecidableEq

namespace FocusManager

/-- The constructor (lines 28–61): `isFocused := false`, empty element list,
no timeout handle, no focused element. -/
def init : FocusManager :=
  { isFocused := false
    elements := []
    listening := []
    focusedElement := none
    pending := []
    nextEventLoopTimeout := none
    counter := 0 }

/-- Model of `clearTimeout( h )`: cancels the timer with handle `h` if it is still
pending; clearing `null` or a dead handle does nothing. -/
def clearTimeout (s : FocusManager) (h : Option Nat) : FocusManager :=
  match h with
  | none => s
  | some id => { s with pending := s.pending.erase id }

/-- Source method `_focus( element )` (lines 102–107):
`clearTimeout( this._nextEventLoopTimeout )`, then
`this._focusedElement = element; this.isFocused = true`. -/
def _focus (s : FocusManager) (element : Nat) : FocusManager :=
  let s1 := s.clearTimeout s.nextEventLoopTimeout
  { s1 with focusedElement := some element, isFocused := true }

/-- Source method `_blur()` (lines 116–121):
`this._nextEventLoopTimeout = setTimeout( …, 0 )` — schedules a fresh timer
and overwrites the stored handle.  Note the source does NOT call
`clearTimeout` here, so a previously pending timer stays pending. -/
def _blur (s : FocusManager) : FocusManager :=
  { s with pending := s.pending ++ [s.counter]
           nextEventLoopTimeout := some s.counter
           counter := s.counter + 1 }

/-- The body of the closure passed to `setTimeout` in `_blur` (lines 117–120):
`this._focusedElement = null; this.isFocused = false;`.
Firing the timer with handle `id` runs that body iff the timer is still
pending and removes it from the queue; a dead handle does nothing. -/
def fireTimeout (s : FocusManager) (id : Nat) : FocusManager :=
  if s.pending.contains id then
    { s with pending := s.pending.erase id
             focusedElement := none
             isFocused := false }
  else s

/-- Source method `add( element )` (lines 68–76).  Returns the resulting state paired with
the error, if one was thrown; a throw happens before any mutation, so the
state component is unchanged in that case. -/
def add (s : FocusManager) (element : Nat) : FocusManager × Option CKEditorError :=
  if s.elements.contains element then
    (s, some CKEditorError.focusManagerAddElementAlreadyExist)
  else
    ({ s with listening := s.listening ++ [element]
              elements := s.elements ++ [element] }, none)

/-- Source method `remove( element )` (lines 83–94).  If the element is the focused one,
calls `this._blur( element )` (the argument is ignored by `_blur`).  Then, if
the element is registered, `stopListening( element )` detaches its listeners;
`this._elements.slice( elementIndex, 1 )` is non-mutating (its result is
discarded), so `elements` is left unchanged. -/
def remove (s : FocusManager) (element : Nat) : FocusManager :=
  let s1 := if s.focusedElement = some element then s._blur else s
  if s1.elements.contains element then
    { s1 with listening := s1.listening.filter (fun x => x ≠ element) }
  else s1

/-- Delivery of a DOM `focus` event on `element`: the listener
`() => this._focus( element )` (line 73) runs iff the element's
subscriptions are attached. -/
def focusEvent (s : FocusManager) (element : Nat) : FocusManager :=
  if s.listening.contains element then s._focus element else s

/-- Delivery of a DOM `blur` event on `element`: the listener
`() => this._blur()` (line 74) runs iff the element's subscriptions are
attached (regardless of which element is focused). -/
def blurEvent (s : FocusManager) (element : Nat) : FocusManager :=
  if s.listening.contains element then s._blur else s

end FocusManager

/-- An externally triggered step: an API call, a DOM notification, or the
host firing a scheduled timer. -/
inductive Event where
  | add (e : Nat)
  | remove (e : Nat)
  | focusEvt (e : Nat)
  | blurEvt (e : Nat)
  | fire (id : Nat)
deriving Repr, DecidableEq

/-- One transition of the manager (an `add` that throws leaves the state
unchanged, which the `Prod.fst` projection captures). -/
def step (s : FocusManager) (ev : Event) : FocusManager :=
  match ev with
  | Event.add e => (s.add e).1
  | Event.remove e => s.remove e
  | Event.focusEvt e => s.focusEvent e
  | Event.blurEvt e => s.blurEvent e
  | Event.fire id => s.fireTimeout id

/-- The state reached from a fresh `FocusManager` after a sequence of events. -/
def run (evs : List Event) : FocusManager :=
  evs.foldl step FocusManager.init

/-- Holds (as `true`) iff the event registers exactly the element `e`. -/
def addsElem (e : Nat) : Event → Bool
  | Event.add x => x == e
  | _ => false

end FocusTracking

namespace FocusTracking

open FocusManager

/-! ## Claims -/

/-- C1.  Handoff between tracked siblings: with `e1` and `e2` registered and
listening and `e1` focused, delivering `blur(e1)` and then, before any timer
fires, `focus(e2)` keeps `isFocused` true at both intermediate states and
ends with `e2` as the focused element. -/
theorem C1_handoff (s : FocusManager) (e1 e2 : Nat)
    (_he1 : s.elements.contains e1 = true) (_he2 : s.elements.contains e2 = true)
    (hl1 : s.listening.contains e1 = true) (hl2 : s.listening.contains e2 = true)
    (_hf : s.focusedElement = some e1) (hi : s.isFocused = true) :
    (s.blurEvent e1).isFocused = true ∧
    ((s.blurEvent e1).focusEvent e2).isFocused = true ∧
    ((s.blurEvent e1).focusEvent e2).focusedElement = some e2 := by
  have hm1 : e1 ∈ s.listening := by simpa using hl1
  have hm2 : e2 ∈ s.listening := by simpa using hl2
  simp [FocusManager.blurEvent, FocusManager.focusEvent, FocusManager._blur,
    FocusManager._focus, FocusManager.clearTimeout, hm1, hm2, hi]

/-- C1 witness: a concrete handoff run. -/
theorem C1_handoff_witness :
    ((run [Event.add 1, Event.add 2, Event.focusEvt 1]).blurEvent 1).isFocused = true ∧
    (((run [Event.add 1, Event.add 2, Event.focusEvt 1]).blurEvent 1).focusEvent 2).isFocused
      = true ∧
    (((run [Event.add 1, Event.add 2, Event.focusEvt 1]).blurEvent 1).focusEvent 2).focusedElement
      = some 2 :=
  C1_handoff (run [Event.add 1, Event.add 2, Event.focusEvt 1]) 1 2
    (by decide) (by decide) (by decide) (by decide) (by decide) (by decide)

/-- C2 counterexample: after registering element 1 and focusing it,
`remove 1` returns with `isFocused` still `true` and the focused-element
reference still set — the blur is deferred, not synchronous, contradicting
the claim that `remove` blurs immediately. -/
theorem C2_counterexample :
    ((run [Event.add 1, Event.focusEvt 1]).remove 1).isFocused = true ∧
    ((run [Event.add 1, Event.focusEvt 1]).remove 1).focusedElement = some 1 ∧
    ((run [Event.add 1, Event.focusEvt 1]).remove 1).pending ≠ [] := by
  decide

/-- C2 amended.  Removing the currently focused element schedules the same
deferred finalize-blur action as a focus-lost notification: when `remove`
returns, `isFocused` and the focused-element reference are unchanged and a
new timer is pending; only when that timer fires are they cleared. -/
theorem C2_remove_defers_blur (s : FocusManager) (e : Nat)
    (hf : s.focusedElement = some e) :
    (s.remove e).isFocused = s.isFocused ∧
    (s.remove e).focusedElement = some e ∧
    (s.remove e).pending = s.pending ++ [s.counter] ∧
    ((s.remove e).fireTimeout s.counter).isFocused = false ∧
    ((s.remove e).fireTimeout s.counter).focusedElement = none := by
  have hm : s.counter ∈ s.pending ++ [s.counter] := by simp
  by_cases h : e ∈ s.elements <;>
    simp [FocusManager.remove, FocusManager._blur, FocusManager.fireTimeout, hf, h, hm]

/-- C2 amended witness: the concrete run of the counterexample, finished by
firing the deferred timer. -/
theorem C2_remove_defers_blur_witness :
    ((run [Event.add 1, Event.focusEvt 1]).remove 1).isFocused
      = (run [Event.add 1, Event.focusEvt 1]).isFocused ∧
    ((run [Event.add 1, Event.focusEvt 1]).remove 1).focusedElement = some 1 ∧
    ((run [Event.add 1, Event.focusEvt 1]).remove 1).pending
      = (run [Event.add 1, Event.focusEvt 1]).pending
        ++ [(run [Event.add 1, Event.focusEvt 1]).counter] ∧
    (((run [Event.add 1, Event.focusEvt 1]).remove 1).fireTimeout
        (run [Event.add 1, Event.focusEvt 1]).counter).isFocused = false ∧
    (((run [Event.add 1, Event.focusEvt 1]).remove 1).fireTimeout
        (run [Event.add 1, Event.focusEvt 1]).counter).focusedElement = none :=
  C2_remove_defers_blur (run [Event.add 1, Event.focusEvt 1]) 1 (by decide)

/-- C3 counterexample: focus element 1, then deliver `blur(1)` and `blur(2)`
before any timer fires — the reachable state has two outstanding deferred
finalize-blur actions, contradicting the at-most-one invariant. -/
theorem C3_counterexample :
    ¬ ((run [Event.add 1, Event.add 2, Event.focusEvt 1,
             Event.blurEvt 1, Event.blurEvt 2]).pending.length ≤ 1) := by
  decide

/-- C3 amended.  Scheduling a new deferred finalize-blur action does NOT
cancel a still-pending one: the new timer is appended to the outstanding
queue and only the stored handle is overwritten, so the number of
outstanding actions grows by one at each focus-lost notification. -/
theorem C3_blur_appends_timer (s : FocusManager) (e : Nat)
    (h : s.listening.contains e = true) :
    (s.blurEvent e).pending = s.pending ++ [s.counter] ∧
    (s.blurEvent e).nextEventLoopTimeout = some s.counter ∧
    (s.blurEvent e).pending.length = s.pending.length + 1 := by
  have hm : e ∈ s.listening := by simpa using h
  simp [FocusManager.blurEvent, FocusManager._blur, hm]

/-- C3 amended witness: a second blur while one timer is pending yields two
pending timers. -/
theorem C3_blur_appends_timer_witness :
    ((run [Event.add 1, Event.add 2, Event.focusEvt 1, Event.blurEvt 1]).blurEvent 2).pending
      = (run [Event.add 1, Event.add 2, Event.focusEvt 1, Event.blurEvt 1]).pending
        ++ [(run [Event.add 1, Event.add 2, Event.focusEvt 1, Event.blurEvt 1]).counter] ∧
    ((run [Event.add 1, Event.add 2, Event.focusEvt 1, Event.blurEvt 1]).blurEvent 2).nextEventLoopTimeout
      = some (run [Event.add 1, Event.add 2, Event.focusEvt 1, Event.blurEvt 1]).counter ∧
    ((run [Event.add 1, Event.add 2, Event.focusEvt 1, Event.blurEvt 1]).blurEvent 2).pending.length
      = (run [Event.add 1, Event.add 2, Event.focusEvt 1, Event.blurEvt 1]).pending.length + 1 :=
  C3_blur_appends_timer
    (run [Event.add 1, Event.add 2, Event.focusEvt 1, Event.blurEvt 1]) 2 (by decide)

/-- C4.  `remove` never deletes from the tracked list (the `slice` call is a
no-op): after `remove e` the element list is unchanged, `e` is still a
member, and a subsequent `add e` throws the duplicate-registration error
while leaving the state as `remove` left it. -/
theorem C4_remove_keeps_element (s : FocusManager) (e : Nat)
    (h : s.elements.contains e = true) :
    (s.remove e).elements = s.elements ∧
    (s.remove e).elements.contains e = true ∧
    ((s.remove e).add e).2 = some CKEditorError.focusManagerAddElementAlreadyExist ∧
    ((s.remove e).add e).1 = s.remove e := by
  have hm : e ∈ s.elements := by simpa using h
  have helems : (s.remove e).elements = s.elements := by
    simp only [FocusManager.remove, FocusManager._blur]
    by_cases hf : s.focusedElement = some e <;>
      by_cases hc : e ∈ s.elements <;> simp [hf, hc]
  refine ⟨helems, ?_, ?_, ?_⟩ <;> simp [FocusManager.add, helems, hm]

/-- C4 witness: remove element 1 after adding it; it is still tracked and
re-adding throws. -/
theorem C4_remove_keeps_element_witness :
    ((run [Event.add 1]).remove 1).elements = (run [Event.add 1]).elements ∧
    ((run [Event.add 1]).remove 1).elements.contains 1 = true ∧
    (((run [Event.add 1]).remove 1).add 1).2
      = some CKEditorError.focusManagerAddElementAlreadyExist ∧
    (((run [Event.add 1]).remove 1).add 1).1 = (run [Event.add 1]).remove 1 :=
  C4_remove_keeps_element (run [Event.add 1]) 1 (by decide)

/-- C5.  `add` on a non-member succeeds and inserts the element; `add` on a
member reports the duplicate-registration error and returns the state
completely unchanged. -/
theorem C5_add_semantics (s : FocusManager) (e : Nat) :
    (s.elements.contains e = false →
      (s.add e).2 = none ∧
      (s.add e).1.elements.contains e = true) ∧
    (s.elements.contains e = true →
      (s.add e).2 = some CKEditorError.focusManagerAddElementAlreadyExist ∧
      (s.add e).1 = s) := by
  constructor <;> intro h
  · have hm : ¬ e ∈ s.elements := by simpa using h
    simp [FocusManager.add, hm]
  · have hm : e ∈ s.elements := by simpa using h
    simp [FocusManager.add, hm]

/-- C5 witness: both branches exercised on concrete states. -/
theorem C5_add_semantics_witness :
    ((FocusManager.init.add 1).2 = none ∧
      (FocusManager.init.add 1).1.elements.contains 1 = true) ∧
    (((FocusManager.init.add 1).1.add 1).2
        = some CKEditorError.focusManagerAddElementAlreadyExist ∧
      ((FocusManager.init.add 1).1.add 1).1 = (FocusManager.init.add 1).1) :=
  ⟨(C5_add_semantics FocusManager.init 1).1 (by decide),
   (C5_add_semantics (FocusManager.init.add 1).1 1).2 (by decide)⟩

/-- C6 counterexample: with two blurs pending, a focus-gain cancels only the
most recently scheduled timer.  After `add 1; add 2; focus(1); blur(1);
blur(2); focus(2)` the timer with handle 0 is still outstanding, and firing
it drops `isFocused` to `false` even though a focus-gain came last —
refuting "cancels any pending-clear timer". -/
theorem C6_counterexample :
    (run [Event.add 1, Event.add 2, Event.focusEvt 1,
          Event.blurEvt 1, Event.blurEvt 2, Event.focusEvt 2]).pending = [0] ∧
    (run [Event.add 1, Event.add 2, Event.focusEvt 1,
          Event.blurEvt 1, Event.blurEvt 2, Event.focusEvt 2,
          Event.fire 0]).isFocused = false := by
  decide

/-- C6 amended.  A focus-gain notification for a tracked element
synchronously records the element as focused and sets `isFocused` to true,
and cancels the pending-clear timer whose handle is currently stored in
`_nextEventLoopTimeout` (the most recently scheduled one); earlier
still-pending timers are not cancelled. -/
theorem C6_focus_synchronous (s : FocusManager) (e : Nat)
    (h : s.listening.contains e = true) :
    (s.focusEvent e).focusedElement = some e ∧
    (s.focusEvent e).isFocused = true ∧
    (s.focusEvent e).pending = (s.clearTimeout s.nextEventLoopTimeout).pending := by
  have hm : e ∈ s.listening := by simpa using h
  cases hn : s.nextEventLoopTimeout <;>
    simp [FocusManager.focusEvent, FocusManager._focus, FocusManager.clearTimeout, hm, hn]

/-- C6 amended witness: focusing element 2 in the double-blur state. -/
theorem C6_focus_synchronous_witness :
    ((run [Event.add 1, Event.add 2, Event.focusEvt 1,
           Event.blurEvt 1, Event.blurEvt 2]).focusEvent 2).focusedElement = some 2 ∧
    ((run [Event.add 1, Event.add 2, Event.focusEvt 1,
           Event.blurEvt 1, Event.blurEvt 2]).focusEvent 2).isFocused = true ∧
    ((run [Event.add 1, Event.add 2, Event.focusEvt 1,
           Event.blurEvt 1, Event.blurEvt 2]).focusEvent 2).pending
      = ((run [Event.add 1, Event.add 2, Event.focusEvt 1,
               Event.blurEvt 1, Event.blurEvt 2]).clearTimeout
          (run [Event.add 1, Event.add 2, Event.focusEvt 1,
                Event.blurEvt 1, Event.blurEvt 2]).nextEventLoopTimeout).pending :=
  C6_focus_synchronous
    (run [Event.add 1, Event.add 2, Event.focusEvt 1, Event.blurEvt 1, Event.blurEvt 2])
    2 (by decide)

/-- C7.  A focus-lost notification for the currently focused element changes
neither `isFocused` nor the focused-element reference synchronously; it
schedules a deferred finalize-blur timer, and firing that timer while it is
still pending clears the focused-element reference and sets `isFocused` to
`false`. -/
theorem C7_blur_defers_then_commits (s : FocusManager) (e : Nat)
    (hl : s.listening.contains e = true) (_hf : s.focusedElement = some e) :
    (s.blurEvent e).isFocused = s.isFocused ∧
    (s.blurEvent e).focusedElement = s.focusedElement ∧
    (s.blurEvent e).pending = s.pending ++ [s.counter] ∧
    ((s.blurEvent e).fireTimeout s.counter).isFocused = false ∧
    ((s.blurEvent e).fireTimeout s.counter).focusedElement = none := by
  have hm : e ∈ s.listening := by simpa using hl
  have hc : s.counter ∈ s.pending ++ [s.counter] := by simp
  simp [FocusManager.blurEvent, FocusManager._blur, FocusManager.fireTimeout, hm, hc]

/-- C7 witness: blur the focused element 1, then let the timer fire. -/
theorem C7_blur_defers_then_commits_witness :
    ((run [Event.add 1, Event.focusEvt 1]).blurEvent 1).isFocused
      = (run [Event.add 1, Event.focusEvt 1]).isFocused ∧
    ((run [Event.add 1, Event.focusEvt 1]).blurEvent 1).focusedElement
      = (run [Event.add 1, Event.focusEvt 1]).focusedElement ∧
    ((run [Event.add 1, Event.focusEvt 1]).blurEvent 1).pending
      = (run [Event.add 1, Event.focusEvt 1]).pending
        ++ [(run [Event.add 1, Event.focusEvt 1]).counter] ∧
    (((run [Event.add 1, Event.focusEvt 1]).blurEvent 1).fireTimeout
        (run [Event.add 1, Event.focusEvt 1]).counter).isFocused = false ∧
    (((run [Event.add 1, Event.focusEvt 1]).blurEvent 1).fireTimeout
        (run [Event.add 1, Event.focusEvt 1]).counter).focusedElement = none :=
  C7_blur_defers_then_commits (run [Event.add 1, Event.focusEvt 1]) 1
    (by decide) (by decide)

/-- Predicate stating that element `e` is completely unknown to the manager
state: not in the element list, not listened to, not the focused element. -/
def absent (s : FocusManager) (e : Nat) : Prop :=
  e ∉ s.elements ∧ e ∉ s.listening ∧ s.focusedElement ≠ some e

/-- Every step whose event does not register `e` preserves absence of `e`. -/
theorem step_preserves_absent (s : FocusManager) (ev : Event) (e : Nat)
    (hev : addsElem e ev = false) (h : absent s e) : absent (step s ev) e := by
  obtain ⟨h1, h2, h3⟩ := h
  cases ev with
  | add x =>
      have hxe : e ≠ x := fun hh => by simp [addsElem, hh] at hev
      by_cases hc : x ∈ s.elements <;>
        simp [step, FocusManager.add, absent, hc, h1, h2, h3, hxe]
  | remove x =>
      refine ⟨?_, ?_, ?_⟩ <;>
        · simp only [step, FocusManager.remove, FocusManager._blur]
          by_cases hf : s.focusedElement = some x
          · have hxe : ¬ x = e := by
              intro hh
              exact h3 (by rw [hf, hh])
            by_cases hc : x ∈ s.elements <;>
              simp [hf, hc, h1, h2, h3, hxe, List.mem_filter]
          · by_cases hc : x ∈ s.elements <;>
              simp [hf, hc, h1, h2, h3, List.mem_filter]
  | focusEvt x =>
      by_cases hc : x ∈ s.listening
      · have hxe : some x ≠ some e := by
          intro hh
          injection hh with hh2
          exact h2 (hh2 ▸ hc)
        cases hn : s.nextEventLoopTimeout <;>
          simp [step, FocusManager.focusEvent, FocusManager._focus,
            FocusManager.clearTimeout, absent, hc, hn, h1, h2, hxe]
      · simpa [step, FocusManager.focusEvent, absent, hc] using ⟨h1, h2, h3⟩
  | blurEvt x =>
      by_cases hc : x ∈ s.listening <;>
        simp [step, FocusManager.blurEvent, FocusManager._blur, absent,
          hc, h1, h2, h3]
  | fire id =>
      by_cases hc : id ∈ s.pending <;>
        simp [step, FocusManager.fireTimeout, absent, hc, h1, h2, h3]

/-- Absence of a never-registered element is preserved along any event
trace. -/
theorem foldl_preserves_absent (e : Nat) :
    ∀ (evs : List Event) (s : FocusManager),
      evs.all (fun ev => !addsElem e ev) = true →
      absent s e → absent (evs.foldl step s) e := by
  intro evs
  induction evs with
  | nil => intro s _ h; exact h
  | cons ev tl ih =>
      intro s hall h
      rw [List.all_cons, Bool.and_eq_true] at hall
      obtain ⟨hev, htl⟩ := hall
      have h1 : addsElem e ev = false := by simpa using hev
      exact ih (step s ev) htl (step_preserves_absent s ev e h1 h)

/-- C8.  Removing an element that was never registered (no `add` for it
anywhere in the history) is a complete no-op: the state after `remove` is
the very state before it, so the tracked set, `isFocused`, the
focused-element reference and the timer queue are all unchanged, and no
error is raised (`remove` is total). -/
theorem C8_remove_never_registered (evs : List Event) (e : Nat)
    (h : evs.all (fun ev => !addsElem e ev) = true) :
    (run evs).remove e = run evs := by
  obtain ⟨h1, h2, h3⟩ :=
    foldl_preserves_absent e evs FocusManager.init h
      (by refine ⟨?_, ?_, ?_⟩ <;> simp [FocusManager.init])
  have h1r : e ∉ (run evs).elements := h1
  have h3r : (run evs).focusedElement ≠ some e := h3
  simp [FocusManager.remove, h1r, h3r]

/-- C8 witness: removing the never-registered element 2 after a realistic
history changes nothing. -/
theorem C8_remove_never_registered_witness :
    (run [Event.add 1, Event.focusEvt 1, Event.blurEvt 1]).remove 2
      = run [Event.add 1, Event.focusEvt 1, Event.blurEvt 1] :=
  C8_remove_never_registered [Event.add 1, Event.focusEvt 1, Event.blurEvt 1] 2
    (by decide)

/-- C9.  After removing a registered element, its listeners are detached, so
a later focus or blur notification on it leaves the whole manager state
(and in particular `isFocused` and the focused-element reference)
unchanged. -/
theorem C9_removed_element_inert (s : FocusManager) (e : Nat)
    (h : s.elements.contains e = true) :
    (s.remove e).focusEvent e = s.remove e ∧
    (s.remove e).blurEvent e = s.remove e := by
  have hm : e ∈ s.elements := by simpa using h
  have hl : e ∉ (s.remove e).listening := by
    simp only [FocusManager.remove, FocusManager._blur]
    by_cases hf : s.focusedElement = some e <;>
      simp [hf, hm, List.mem_filter]
  constructor <;>
    simp [FocusManager.focusEvent, FocusManager.blurEvent, hl]

/-- C9 witness: notifications on the removed element 1 are inert. -/
theorem C9_removed_element_inert_witness :
    ((run [Event.add 1, Event.focusEvt 1]).remove 1).focusEvent 1
      = (run [Event.add 1, Event.focusEvt 1]).remove 1 ∧
    ((run [Event.add 1, Event.focusEvt 1]).remove 1).blurEvent 1
      = (run [Event.add 1, Event.focusEvt 1]).remove 1 :=
  C9_removed_element_inert (run [Event.add 1, Event.focusEvt 1]) 1 (by decide)

/-- Every single step preserves the link between the derived boolean and the
back-reference. -/
theorem step_preserves_link (s : FocusManager) (ev : Event)
    (h : s.isFocused = s.focusedElement.isSome) :
    (step s ev).isFocused = (step s ev).focusedElement.isSome := by
  cases ev with
  | add x =>
      by_cases hc : x ∈ s.elements <;> simp [step, FocusManager.add, hc, h]
  | remove x =>
      simp only [step, FocusManager.remove, FocusManager._blur]
      by_cases hf : s.focusedElement = some x <;>
        by_cases hc : x ∈ s.elements <;> simp [hf, hc, h]
  | focusEvt x =>
      by_cases hc : x ∈ s.listening
      · cases hn : s.nextEventLoopTimeout <;>
          simp [step, FocusManager.focusEvent, FocusManager._focus,
            FocusManager.clearTimeout, hc, hn]
      · simpa [step, FocusManager.focusEvent, hc] using h
  | blurEvt x =>
      by_cases hc : x ∈ s.listening <;>
        simp [step, FocusManager.blurEvent, FocusManager._blur, hc, h]
  | fire id =>
      by_cases hc : id ∈ s.pending <;>
        simp [step, FocusManager.fireTimeout, hc, h]

/-- C10.  In every state reachable from a fresh manager by any event trace,
`isFocused` is true exactly when the focused-element reference is non-null;
and the fresh manager starts unfocused with no focused element. -/
theorem C10_isFocused_iff_focused_ref (evs : List Event) :
    ((run evs).isFocused = true ↔ (run evs).focusedElement ≠ none) ∧
    FocusManager.init.isFocused = false ∧
    FocusManager.init.focusedElement = none := by
  have key : ∀ (l : List Event) (s : FocusManager),
      s.isFocused = s.focusedElement.isSome →
      (l.foldl step s).isFocused = (l.foldl step s).focusedElement.isSome := by
    intro l
    induction l with
    | nil => intro s h; exact h
    | cons ev tl ih => intro s h; exact ih (step s ev) (step_preserves_link s ev h)
  have h := key evs FocusManager.init (by simp [FocusManager.init])
  refine ⟨?_, by simp [FocusManager.init], by simp [FocusManager.init]⟩
  rw [run] at *
  rw [h]
  exact Option.isSome_iff_ne_none

end FocusTracking
